import Mathlib

/-!
Verification development for the astroport-dca contract (contracts/dca).

The definitions below are a shallow embedding of the Rust handlers in
`contracts/dca/src/handlers/` together with the state types in
`contracts/dca/src/state.rs` and `packages/astroport-dca/src/dca.rs`.
Machine integers (`Uint128`, `u64`) are modelled as `Nat`; where the Rust
code performs checked arithmetic the embedding returns an error, where it
performs unchecked/wrapping arithmetic the embedding reduces modulo the
word size, and where the `cosmwasm_std::Uint128` operators panic on
overflow the embedding returns a distinguished `panic` outcome.
-/

namespace AstroDca

/-- Modulus of the 128-bit unsigned integers (`Uint128`) used for amounts. -/
def U128_MOD : Nat := 2 ^ 128

/-- Modulus of the 64-bit unsigned integers (`u64`) used for ids and times. -/
def U64_MOD : Nat := 2 ^ 64

/-- `astroport::asset::AssetInfo`: a native denomination or a cw20 token
contract address. -/
inductive AssetInfo where
  | native (denom : String)
  | token (contractAddr : String)
deriving DecidableEq, Repr

/-- Modelled from the spec: display form of an asset identity used in error
payloads (the `Display` impl of `astroport::asset::AssetInfo`, which is part
of the vendored `packages/astroport` crate but not included under `src/`):
a native asset displays as its denom, a token as its contract address. -/
def AssetInfo.toStr : AssetInfo → String
  | .native denom => denom
  | .token contractAddr => contractAddr

/-- `astroport::asset::Asset`: an asset identity together with an amount. -/
structure Asset where
  info : AssetInfo
  amount : Nat
deriving DecidableEq, Repr

/-- `astroport_dca::dca::DcaInfo`: one stored DCA order. -/
structure DcaInfo where
  id : Nat
  initial_asset : Asset
  target_asset : AssetInfo
  interval : Nat
  last_purchase : Nat
  dca_amount : Nat
deriving DecidableEq, Repr

/-- Modelled from the spec: a hop of the swap route (the
`astroport::router::SwapOperation` type of the vendored `packages/astroport`
crate, not included under `src/`): either a native swap between two denoms
or an astroport swap between two asset identities. -/
inductive SwapOperation where
  | nativeSwap (offer_denom ask_denom : String)
  | astroSwap (offer_asset_info ask_asset_info : AssetInfo)
deriving DecidableEq, Repr

/-- Modelled from the spec: `SwapOperation::get_target_asset_info` returns
the output (ask) asset identity of a hop ("each hop ... naming offer/ask
asset identities"; the route check uses only the output identity). -/
def SwapOperation.get_target_asset_info : SwapOperation → AssetInfo
  | .nativeSwap _ ask_denom => .native ask_denom
  | .astroSwap _ ask_asset_info => ask_asset_info

/-- `state::Config`: the contract-wide configuration (`max_spread` is a
`Decimal` that the core logic only passes through; it is modelled opaquely
as a `Nat`). -/
structure Config where
  max_hops : Nat
  max_spread : Nat
  whitelisted_fee_assets : List Asset
  whitelisted_tokens : List AssetInfo
  factory_addr : String
  router_addr : String
deriving DecidableEq, Repr

/-- `Config::is_whitelisted_asset`. -/
def Config.is_whitelisted_asset (c : Config) (a : AssetInfo) : Bool :=
  c.whitelisted_tokens.contains a

/-- `Config::is_whitelisted_fee_asset`. -/
def Config.is_whitelisted_fee_asset (c : Config) (a : AssetInfo) : Bool :=
  c.whitelisted_fee_assets.any (fun w => w.info == a)

/-- `state::UserConfig`: the per-user configuration record. -/
structure UserConfig where
  last_id : Nat
  max_hops : Option Nat
  max_spread : Option Nat
  tip_balance : List Asset
deriving DecidableEq, Repr

/-- `UserConfig::default()`: zero id counter, no overrides, empty balance. -/
def UserConfig.default : UserConfig :=
  { last_id := 0, max_hops := none, max_spread := none, tip_balance := [] }

/-- The storage touched by the handlers, restricted to one user: the
`CONFIG` item, that user's `USER_CONFIG` entry and their `USER_DCA` entry. -/
structure Storage where
  config : Config
  user_config : Option UserConfig
  user_dca : Option (List DcaInfo)
deriving DecidableEq, Repr

/-- The outbound cosmos messages the handlers emit. -/
inductive CosmosMsg where
  | bankSend (to_address : String) (amount : Nat) (denom : String)
  | cw20TransferFrom (contractAddr owner recipient : String) (amount : Nat)
  | routerSwap (router : String) (funds : List (Nat × String))
      (operations : List SwapOperation) (to_addr : String) (max_spread : Nat)
deriving DecidableEq, Repr

/-- `error::ContractError` (plus the `StdError`/`OverflowError` variants the
handlers construct through `?`). -/
inductive ContractError where
  | divideByZero (operand : Nat)
  | overflowSub (minuend subtrahend : Nat)
  | overflowAdd (a b : Nat)
  | invalidTokenDeposit
  | invalidHopRoute (token : String)
  | nonexistentDca
  | maxHopsAssertion (hops : Nat)
  | insufficientTipBalance
  | emptyHopRoute
  | purchaseTooEarly
  | targetAssetAssertion
  | insufficientBalance
  | duplicateAsset
  | depositTooSmall
  | indivisibleDeposit
  | nonWhitelistedTipAsset (asset : AssetInfo)
  | tipAssetNotDeposited (asset : AssetInfo)
  | redeemTipTooLarge (requested performed : Nat)
  | nativeBalanceMismatch
deriving DecidableEq, Repr

/-- Outcome of a handler step: a value, a returned `ContractError`, or an
unrecoverable Rust panic (`Uint128` arithmetic operators panic on
overflow rather than returning an error). -/
inductive CResult (α : Type) where
  | ok (val : α)
  | err (e : ContractError)
  | panic
deriving DecidableEq, Repr

/-- `Uint128::checked_sub`: `none` models `Err(OverflowError)`. -/
def checkedSub (a b : Nat) : Option Nat :=
  if b ≤ a then some (a - b) else none

/-- Left fold of `Uint128` addition as performed by `iter().sum()`; the
`Add` impl of `Uint128` panics on overflow, modelled by `none`.  Since all
summands are non-negative, some partial sum overflows iff the total does. -/
def sumU128 : List Nat → Option Nat
  | [] => some 0
  | x :: xs =>
    match sumU128 xs with
    | none => none
    | some s => if x + s < U128_MOD then some (x + s) else none

/-- The unchecked `u64` addition `order.last_purchase + order.interval` in
`perform_dca_purchase.rs` (release-profile wasm semantics: wrapping). -/
def wrapAdd64 (a b : Nat) : Nat := (a + b) % U64_MOD

/-- Modelled from the spec: the funding-proof collaborator
(`Asset::assert_sent_native_token_balance` of the vendored
`packages/astroport` crate, not included under `src/`): "given a claimed
native-asset amount and the invocation's attached native funds, assert
exact match".  Funds are `(denom, amount)` pairs; a missing denom counts
as an attached amount of zero. -/
def assert_sent_native_token_balance (amount : Nat) (denom : String)
    (funds : List (String × Nat)) : CResult Unit :=
  match funds.find? (fun c => c.1 == denom) with
  | some c => if amount == c.2 then .ok () else .err .nativeBalanceMismatch
  | none => if amount == 0 then .ok () else .err .nativeBalanceMismatch

/-! ## perform_dca_purchase (handlers/perform_dca_purchase.rs) -/

/-- One iteration of the middle-hop whitelist check (lines 70-95): returns
the offending token's display string, or `none` if the hop is allowed.
A `NativeSwap` ask denom is compared against native whitelist entries only;
an `AstroSwap` ask is checked with `Config::is_whitelisted_asset`. -/
def hopOutputCheck (cfg : Config) : SwapOperation → Option String
  | .nativeSwap _ ask_denom =>
    if cfg.whitelisted_tokens.any (fun t =>
        match t with
        | .native denom => ask_denom == denom
        | .token _ => false)
    then none
    else some ask_denom
  | .astroSwap _ ask_asset_info =>
    if cfg.is_whitelisted_asset ask_asset_info then none
    else some ask_asset_info.toStr

/-- The loop over `middle_hops`: the first non-whitelisted output wins. -/
def checkMiddleHops (cfg : Config) : List SwapOperation → Option String
  | [] => none
  | s :: rest =>
    match hopOutputCheck cfg s with
    | some t => some t
    | none => checkMiddleHops cfg rest

/-- One element of the `fee_redeem` validation map (lines 100-122): find the
whitelist entry for the asset, fail on a zero fee-per-hop unit
(`checked_rem` divide-by-zero) or a non-multiple amount, otherwise return
`amount / unit`. -/
def feeTerm (cfg : Config) (a : Asset) : CResult Nat :=
  match cfg.whitelisted_fee_assets.find? (fun w => w.info == a.info) with
  | none => .err (.nonWhitelistedTipAsset a.info)
  | some w =>
    if w.amount = 0 then .err (.divideByZero a.amount)
    else if a.amount % w.amount ≠ 0 then .err .indivisibleDeposit
    else .ok (a.amount / w.amount)

/-- `collect::<Result<Vec<_>, _>>()` over the fee terms. -/
def feeTerms (cfg : Config) : List Asset → CResult (List Nat)
  | [] => .ok []
  | a :: rest =>
    match feeTerm cfg a with
    | .err e => .err e
    | .panic => .panic
    | .ok t =>
      match feeTerms cfg rest with
      | .err e => .err e
      | .panic => .panic
      | .ok ts => .ok (t :: ts)

/-- `requested_fee_hops` (lines 98-125): the collected terms summed with the
panicking `Uint128` `Sum` impl. -/
def requestedFeeHops (cfg : Config) (fee_redeem : List Asset) : CResult Nat :=
  match feeTerms cfg fee_redeem with
  | .err e => .err e
  | .panic => .panic
  | .ok ts =>
    match sumU128 ts with
    | none => .panic
    | some s => .ok s

/-- Replace the amount of the first tip-balance entry matching `i`
(the effect of the `iter_mut().find(...)` mutation in lines 139-151). -/
def updateTip : List Asset → AssetInfo → Nat → List Asset
  | [], _, _ => []
  | b :: rest, i, amt =>
    if b.info == i then { b with amount := amt } :: rest
    else b :: updateTip rest i amt

/-- The fee-redemption loop (lines 138-176): for each requested fee asset,
find the user's tip-balance entry, deduct with `checked_sub`, and emit the
keeper payment (bank send for native, cw20 `TransferFrom` for tokens).
Returns the updated tip balance and the payment messages in order. -/
def redeemFees (sender user_address : String) :
    List Asset → List Asset → CResult (List Asset × List CosmosMsg)
  | tip, [] => .ok (tip, [])
  | tip, fa :: rest =>
    match tip.find? (fun b => b.info == fa.info) with
    | none => .err .insufficientTipBalance
    | some b =>
      match checkedSub b.amount fa.amount with
      | none => .err .insufficientTipBalance
      | some newBalance =>
        let tip' := updateTip tip fa.info newBalance
        let msg :=
          match fa.info with
          | .native denom => CosmosMsg.bankSend sender fa.amount denom
          | .token ca => CosmosMsg.cw20TransferFrom ca user_address sender fa.amount
        match redeemFees sender user_address tip' rest with
        | .err e => .err e
        | .panic => .panic
        | .ok (tipFinal, msgs) => .ok (tipFinal, msg :: msgs)

/-- `orders.iter().position(|order| order.id == id)` together with the
element found: index of the first order with the given id, and the order. -/
def findOrder : List DcaInfo → Nat → Option (Nat × DcaInfo)
  | [], _ => none
  | o :: rest, id =>
    if o.id = id then some (0, o)
    else (findOrder rest id).map (fun p => (p.1 + 1, p.2))

/-- The closure passed to `USER_DCA.update` (lines 182-262): locate the
order, check the purchase interval (unchecked `u64` addition), check the
final hop's output against the target asset, deduct `dca_amount`
(`checked_sub`), stamp `last_purchase`, emit the router messages, and drop
the order if its remaining amount reached zero. -/
def purchaseOrdersStep (router_addr user_address : String)
    (max_spread now : Nat) (hops : List SwapOperation) (id : Nat)
    (ordersOpt : Option (List DcaInfo)) :
    CResult (List DcaInfo × List CosmosMsg) :=
  match ordersOpt with
  | none => .err .nonexistentDca
  | some orders =>
    match findOrder orders id with
    | none => .err .nonexistentDca
    | some (idx, order) =>
      if now < wrapAdd64 order.last_purchase order.interval then
        .err .purchaseTooEarly
      else
        match hops.getLast? with
        | none => .err .emptyHopRoute
        | some last_hop =>
          if last_hop.get_target_asset_info ≠ order.target_asset then
            .err .targetAssetAssertion
          else
            match checkedSub order.initial_asset.amount order.dca_amount with
            | none => .err .insufficientBalance
            | some newAmt =>
              let order' :=
                { order with
                  initial_asset := { order.initial_asset with amount := newAmt }
                  last_purchase := now }
              let tokenMsgs :=
                match order.initial_asset.info with
                | .token ca =>
                  [CosmosMsg.cw20TransferFrom ca user_address router_addr order.dca_amount]
                | .native _ => []
              let funds :=
                match order.initial_asset.info with
                | .native denom => [(order.dca_amount, denom)]
                | .token _ => []
              let routerMsg :=
                CosmosMsg.routerSwap router_addr funds hops user_address max_spread
              let orders' := orders.set idx order'
              let orders'' := if newAmt = 0 then orders'.eraseIdx idx else orders'
              .ok (orders'', tokenMsgs ++ [routerMsg])

/-- `perform_dca_purchase` (lines 39-272).  `now` is
`env.block.time.seconds()`, `sender` the keeper (`info.sender`),
`user_address` the validated beneficiary.  The returned storage equals the
input storage on every error path (all writes happen in the final
`USER_DCA.update` / `USER_CONFIG.save`). -/
def perform_dca_purchase (st : Storage) (now : Nat) (sender user_address : String)
    (id : Nat) (hops : List SwapOperation) (fee_redeem : List Asset) :
    CResult (List CosmosMsg) × Storage :=
  let user_config := st.user_config.getD UserConfig.default
  let cfg := st.config
  if hops.isEmpty then (.err .emptyHopRoute, st)
  else if hops.length > user_config.max_hops.getD cfg.max_hops then
    (.err (.maxHopsAssertion hops.length), st)
  else
    match checkMiddleHops cfg hops.dropLast with
    | some token => (.err (.invalidHopRoute token), st)
    | none =>
      match requestedFeeHops cfg fee_redeem with
      | .err e => (.err e, st)
      | .panic => (.panic, st)
      | .ok requested =>
        if requested > hops.length then
          (.err (.redeemTipTooLarge requested hops.length), st)
        else
          match redeemFees sender user_address user_config.tip_balance fee_redeem with
          | .err e => (.err e, st)
          | .panic => (.panic, st)
          | .ok (tip', feeMsgs) =>
            let max_spread := user_config.max_spread.getD cfg.max_spread
            match purchaseOrdersStep cfg.router_addr user_address max_spread now
                hops id st.user_dca with
            | .err e => (.err e, st)
            | .panic => (.panic, st)
            | .ok (orders', orderMsgs) =>
              let user_config' := { user_config with tip_balance := tip' }
              (.ok (feeMsgs ++ orderMsgs),
               { st with user_dca := some orders', user_config := some user_config' })

/-! ## withdraw (handlers/withdraw.rs) -/

/-- The loop over the requested withdrawal assets (lines 33-54): each asset
must be a whitelisted fee asset, must have a tip-balance entry, and its
balance is reduced with `checked_sub` (an underflow surfaces the
`OverflowError` through `?`); native withdrawals push a bank transfer. -/
def withdrawLoop (cfg : Config) (sender : String) :
    List Asset → List Asset → CResult (List Asset × List CosmosMsg)
  | tip, [] => .ok (tip, [])
  | tip, a :: rest =>
    if ¬ cfg.is_whitelisted_fee_asset a.info then
      .err (.nonWhitelistedTipAsset a.info)
    else
      match tip.find? (fun b => b.info == a.info) with
      | none => .err (.tipAssetNotDeposited a.info)
      | some b =>
        match checkedSub b.amount a.amount with
        | none => .err (.overflowSub b.amount a.amount)
        | some newBalance =>
          let tip' := updateTip tip a.info newBalance
          let msgs :=
            match a.info with
            | .native denom => [CosmosMsg.bankSend sender a.amount denom]
            | .token _ => []
          match withdrawLoop cfg sender tip' rest with
          | .err e => .err e
          | .panic => .panic
          | .ok (tipFinal, restMsgs) => .ok (tipFinal, msgs ++ restMsgs)

/-- `withdraw` (lines 20-70): after the loop, the user's config entry is
removed whenever every tip-balance entry is zero, and saved with the
reduced balances otherwise. -/
def withdraw (st : Storage) (sender : String) (assets : List Asset) :
    CResult (List CosmosMsg) × Storage :=
  let user_config := st.user_config.getD UserConfig.default
  match withdrawLoop st.config sender user_config.tip_balance assets with
  | .err e => (.err e, st)
  | .panic => (.panic, st)
  | .ok (tip', msgs) =>
    if tip'.all (fun a => a.amount = 0) then
      (.ok msgs, { st with user_config := none })
    else
      (.ok msgs, { st with user_config := some { user_config with tip_balance := tip' } })

/-! ## create_dca_order (handlers/create_dca_order.rs) -/

/-- `create_dca_order` (lines 48-131).  `funds` are the transaction's
attached native coins and `allowance` gives the live cw20 allowance the
contract holds from `sender` for a given token address (the external
`get_token_allowance` query). -/
def create_dca_order (st : Storage) (sender : String)
    (funds : List (String × Nat)) (allowance : String → Nat)
    (initial_asset : Asset) (target_asset : AssetInfo) (interval : Nat)
    (dca_amount : Nat) (first_purchase : Option Nat) :
    CResult Unit × Storage :=
  let orders := st.user_dca.getD []
  if initial_asset.info = target_asset then (.err .duplicateAsset, st)
  else if dca_amount > initial_asset.amount then (.err .depositTooSmall, st)
  else if dca_amount = 0 then (.err (.divideByZero initial_asset.amount), st)
  else if initial_asset.amount % dca_amount ≠ 0 then (.err .indivisibleDeposit, st)
  else
    let fundingCheck : CResult Unit :=
      match initial_asset.info with
      | .native denom =>
        assert_sent_native_token_balance initial_asset.amount denom funds
      | .token contract_addr =>
        if allowance contract_addr ≠ initial_asset.amount then
          .err .invalidTokenDeposit
        else .ok ()
    match fundingCheck with
    | .err e => (.err e, st)
    | .panic => (.panic, st)
    | .ok _ =>
      let user_config := st.user_config.getD UserConfig.default
      -- `config.last_id.checked_add(1)` with the u64 overflow surfaced
      if user_config.last_id + 1 < U64_MOD then
        let id := user_config.last_id + 1
        let user_config' := { user_config with last_id := id }
        let newOrder : DcaInfo :=
          { id := id
            initial_asset := initial_asset
            target_asset := target_asset
            interval := interval
            last_purchase := first_purchase.getD 0
            dca_amount := dca_amount }
        (.ok (),
         { st with
            user_config := some user_config'
            user_dca := some (orders ++ [newOrder]) })
      else (.err (.overflowAdd user_config.last_id 1), st)

/-! ## modify_dca_order (handlers/modify_dca_order.rs) -/

/-- `ModifyDcaOrderParameters`. -/
structure ModifyDcaOrderParameters where
  id : Nat
  new_initial_asset : Asset
  new_target_asset : AssetInfo
  new_interval : Nat
  new_dca_amount : Nat
  new_first_purchase : Option Nat
deriving DecidableEq, Repr

/-- The sum over the user's orders of the amounts whose initial asset is
the cw20 token `contract_addr` (lines 105-113 / 147-156), using the
panicking `Uint128` `Sum` impl. -/
def totalTokenAllowance (orders : List DcaInfo) (contract_addr : String) : Option Nat :=
  sumU128 (orders.map (fun o =>
    match o.initial_asset.info with
    | .token ca => if ca = contract_addr then o.initial_asset.amount else 0
    | .native _ => 0))

/-- The cw20 deposit check shared by both branches of `modify_dca_order`:
`total_allowance + extra > allowance` fails with `InvalidTokenDeposit`; the
`+` is the panicking `Uint128` addition. -/
def checkTokenDeposit (orders : List DcaInfo) (contract_addr : String)
    (extra allowance : Nat) : CResult Unit :=
  match totalTokenAllowance orders contract_addr with
  | none => .panic
  | some total =>
    if total + extra < U128_MOD then
      if total + extra > allowance then .err .invalidTokenDeposit else .ok ()
    else .panic

/-- `modify_dca_order` (lines 44-196).  The order set is the only storage
this handler touches, so the embedding returns the new order list together
with the emitted messages.  `funds` and `allowance` are as in
`create_dca_order`.  The two `checked_sub` calls computing
`asset_difference` cannot fail (each branch subtracts the smaller amount),
so the difference is written directly with truncated subtraction. -/
def modify_dca_order (ordersOpt : Option (List DcaInfo))
    (sender : String) (funds : List (String × Nat)) (allowance : String → Nat)
    (p : ModifyDcaOrderParameters) : CResult (List DcaInfo × List CosmosMsg) :=
  let orders := ordersOpt.getD []
  match findOrder orders p.id with
  | none => .err .nonexistentDca
  | some (idx, order) =>
    let should_refund := order.initial_asset.amount > p.new_initial_asset.amount
    let difference :=
      if should_refund then order.initial_asset.amount - p.new_initial_asset.amount
      else p.new_initial_asset.amount - order.initial_asset.amount
    if p.new_initial_asset.info = p.new_target_asset then .err .duplicateAsset
    else
      let depositCheck : CResult (List CosmosMsg) :=
        if order.initial_asset.info = p.new_initial_asset.info then
          if ¬ should_refund then
            match order.initial_asset.info with
            | .native denom =>
              match assert_sent_native_token_balance difference denom funds with
              | .err e => .err e
              | .panic => .panic
              | .ok _ => .ok []
            | .token contract_addr =>
              match checkTokenDeposit orders contract_addr difference
                  (allowance contract_addr) with
              | .err e => .err e
              | .panic => .panic
              | .ok _ => .ok []
          else
            match p.new_initial_asset.info with
            | .native denom => .ok [CosmosMsg.bankSend sender difference denom]
            | .token _ => .ok []
        else
          let refundMsgs :=
            match order.initial_asset.info with
            | .native denom =>
              [CosmosMsg.bankSend sender order.initial_asset.amount denom]
            | .token _ => []
          match p.new_initial_asset.info with
          | .native denom =>
            match assert_sent_native_token_balance p.new_initial_asset.amount
                denom funds with
            | .err e => .err e
            | .panic => .panic
            | .ok _ => .ok refundMsgs
          | .token contract_addr =>
            match checkTokenDeposit orders contract_addr p.new_initial_asset.amount
                (allowance contract_addr) with
            | .err e => .err e
            | .panic => .panic
            | .ok _ => .ok refundMsgs
      match depositCheck with
      | .err e => .err e
      | .panic => .panic
      | .ok msgs =>
        let order' :=
          { order with
            initial_asset := p.new_initial_asset
            target_asset := p.new_target_asset
            interval := p.new_interval
            dca_amount := p.new_dca_amount
            last_purchase :=
              match p.new_first_purchase with
              | some t => t
              | none => order.last_purchase }
        .ok (orders.set idx order', msgs)

/-! ## Concrete fixtures (mirroring the repository's own test setups) -/

/-- A contract configuration like the one instantiated in the Rust tests:
`uluna` is a fee asset at 15000 per hop, `ujpy` is a whitelisted route
token. -/
def cfgFix : Config :=
  { max_hops := 4
    max_spread := 5
    whitelisted_fee_assets := [⟨.native "uluna", 15000⟩]
    whitelisted_tokens := [.native "ujpy"]
    factory_addr := "factory"
    router_addr := "router" }

/-- A user configuration with a `uluna` tip balance of 45000. -/
def ucFix : UserConfig :=
  { last_id := 1, max_hops := none, max_spread := none
    tip_balance := [⟨.native "uluna", 45000⟩] }

/-- A stored order: spend 10000 `uluna` per purchase out of 100000, buying
`ukrw` every 500 seconds. -/
def orderFix : DcaInfo :=
  { id := 1, initial_asset := ⟨.native "uluna", 100000⟩
    target_asset := .native "ukrw", interval := 500, last_purchase := 0
    dca_amount := 10000 }

/-- Storage holding `cfgFix`, `ucFix` and the single order `orderFix`. -/
def stFix : Storage := ⟨cfgFix, some ucFix, some [orderFix]⟩

/-- A two-hop route `uluna -> ujpy -> ukrw` (the route of the Rust test
`can_perform_native_purchase`). -/
def hopsFix : List SwapOperation :=
  [.astroSwap (.native "uluna") (.native "ujpy"),
   .astroSwap (.native "ujpy") (.native "ukrw")]

/-! ## C2: failed purchases write nothing -/

/-- Every run of `perform_dca_purchase` either succeeds or leaves the
storage untouched: scrutinising the definition, each `err`/`panic` branch
returns the input storage. -/
theorem perform_storage_dichotomy (st : Storage) (now : Nat)
    (sender user : String) (id : Nat) (hops : List SwapOperation)
    (fee : List Asset) :
    (∃ msgs, (perform_dca_purchase st now sender user id hops fee).1 = .ok msgs) ∨
    (perform_dca_purchase st now sender user id hops fee).2 = st := by
  unfold perform_dca_purchase
  dsimp only
  repeat' split
  all_goals first
    | exact Or.inr rfl
    | exact Or.inl ⟨_, rfl⟩

/-- C2: whenever `perform_dca_purchase` returns an error, the storage —
in particular the beneficiary's `USER_DCA` order set and `USER_CONFIG`
record — is exactly the pre-invocation storage. -/
theorem purchase_error_writes_nothing (st : Storage) (now : Nat)
    (sender user : String) (id : Nat) (hops : List SwapOperation)
    (fee : List Asset) (e : ContractError)
    (herr : (perform_dca_purchase st now sender user id hops fee).1 = .err e) :
    (perform_dca_purchase st now sender user id hops fee).2 = st := by
  rcases perform_storage_dichotomy st now sender user id hops fee with ⟨msgs, hok⟩ | hst
  · rw [hok] at herr; cases herr
  · exact hst

/-- Witness for C2 at a concrete erroring input: an empty hop route fails
and the storage is returned unchanged. -/
theorem purchase_error_writes_nothing_witness :
    (perform_dca_purchase stFix 1000 "bot" "creator" 1 [] []).2 = stFix :=
  purchase_error_writes_nothing stFix 1000 "bot" "creator" 1 [] []
    .emptyHopRoute (by decide)

/-! ## C3: the timing addition is unchecked -/

/-- An order whose `last_purchase + interval` overflows `u64`: last
purchased at time 1 with interval `2^64 - 1`. -/
def orderWrap : DcaInfo :=
  { id := 1, initial_asset := ⟨.native "uluna", 100⟩
    target_asset := .native "ukrw", interval := U64_MOD - 1, last_purchase := 1
    dca_amount := 100 }

/-- Storage holding `orderWrap` with no user configuration. -/
def stWrap : Storage := ⟨cfgFix, none, some [orderWrap]⟩

/-- A single direct hop to the target (no middle hops to whitelist). -/
def hopsDirect : List SwapOperation :=
  [.astroSwap (.native "uluna") (.native "ukrw")]

/-- C3: the timing computation `last_purchase + interval` is an unchecked
`u64` addition.  With `last_purchase = 1` and `interval = 2^64 - 1` the sum
wraps to `0`, so a purchase at block time 0 — mathematically `2^64` seconds
too early — passes the interval check and succeeds outright; no arithmetic
error value is ever returned, contradicting the spec's checked-arithmetic
guarantee. -/
theorem timing_add_overflow_is_silent :
    0 < orderWrap.last_purchase + orderWrap.interval ∧
    wrapAdd64 orderWrap.last_purchase orderWrap.interval = 0 ∧
    perform_dca_purchase stWrap 0 "bot" "user" 1 hopsDirect [] =
      (.ok [CosmosMsg.routerSwap "router" [(100, "uluna")] hopsDirect "user" 5],
       { stWrap with user_dca := some [], user_config := some UserConfig.default }) := by
  refine ⟨by decide, by decide, by decide⟩

/-! ## C8: create-order divisibility failures -/

/-- Storage with no user data, used for creation counterexamples. -/
def stEmpty : Storage := ⟨cfgFix, none, none⟩

/-- C8 counterexample: depositing 5 with `dca_amount = 10` (not an exact
multiple, nonzero divisor, distinct assets, funds attached) fails with
`DepositTooSmall`, not `IndivisibleDeposit`: the `dca_amount >
initial_asset.amount` check precedes the divisibility check. -/
theorem create_indivisible_claim_counterexample :
    (5 % 10 ≠ 0) ∧ (10 ≠ 0) ∧
    create_dca_order stEmpty "creator" [("uluna", 5)] (fun _ => 0)
        ⟨.native "uluna", 5⟩ (.native "ukrw") 100 10 none =
      (.err .depositTooSmall, stEmpty) := by
  refine ⟨by decide, by decide, by decide⟩

/-- C8 (amended): provided the initial and target assets differ, creation
with `dca_amount = 0` fails with a divide-by-zero error (never a panic),
and creation with a nonzero `dca_amount ≤ initial_asset.amount` that does
not divide `initial_asset.amount` fails with `IndivisibleDeposit`; in both
cases the storage (hence the order set) is unchanged. -/
theorem create_divisibility_errors (st : Storage) (sender : String)
    (funds : List (String × Nat)) (allowance : String → Nat)
    (initial_asset : Asset) (target_asset : AssetInfo) (interval : Nat)
    (dca_amount : Nat) (first_purchase : Option Nat)
    (hne : initial_asset.info ≠ target_asset) :
    (dca_amount = 0 →
      create_dca_order st sender funds allowance initial_asset target_asset
          interval dca_amount first_purchase =
        (.err (.divideByZero initial_asset.amount), st)) ∧
    (dca_amount ≠ 0 → dca_amount ≤ initial_asset.amount →
      initial_asset.amount % dca_amount ≠ 0 →
      create_dca_order st sender funds allowance initial_asset target_asset
          interval dca_amount first_purchase =
        (.err .indivisibleDeposit, st)) := by
  constructor
  · intro h0
    subst h0
    unfold create_dca_order
    rw [if_neg hne, if_neg (by omega), if_pos rfl]
  · intro hnz hle hrem
    unfold create_dca_order
    rw [if_neg hne, if_neg (by omega), if_neg hnz, if_pos hrem]

/-- Witness for C8's amended theorem at concrete inputs: `dca_amount = 0`
gives a divide-by-zero error, and an indivisible nonzero amount gives
`IndivisibleDeposit`. -/
theorem create_divisibility_errors_witness :
    (0 = 0 →
      create_dca_order stEmpty "creator" [] (fun _ => 0)
          ⟨.native "uluna", 30⟩ (.native "ukrw") 100 0 none =
        (.err (.divideByZero 30), stEmpty)) ∧
    (7 ≠ 0 → 7 ≤ 30 → 30 % 7 ≠ 0 →
      create_dca_order stEmpty "creator" [] (fun _ => 0)
          ⟨.native "uluna", 30⟩ (.native "ukrw") 100 7 none =
        (.err .indivisibleDeposit, stEmpty)) := by
  have h30 := create_divisibility_errors stEmpty "creator" [] (fun _ => 0)
    ⟨.native "uluna", 30⟩ (.native "ukrw") 100 0 none (by decide)
  have h7 := create_divisibility_errors stEmpty "creator" [] (fun _ => 0)
    ⟨.native "uluna", 30⟩ (.native "ukrw") 100 7 none (by decide)
  exact ⟨fun _ => h30.1 rfl, fun _ _ _ => h7.2 (by decide) (by decide) (by decide)⟩

/-! ## C5: when withdraw deletes the user config -/

/-- A user config with a non-default id counter (`last_id = 3`) and a
5 `uluna` tip balance. -/
def ucLastId : UserConfig :=
  { last_id := 3, max_hops := none, max_spread := none
    tip_balance := [⟨.native "uluna", 5⟩] }

/-- Storage holding `ucLastId`. -/
def stLastId : Storage := ⟨cfgFix, some ucLastId, none⟩

/-- C5 counterexample: withdrawing the whole tip balance deletes the
stored `UserConfig` even though `last_id = 3` is not at its default value
— the code never inspects the other fields before removing the record. -/
theorem withdraw_delete_ignores_other_fields_counterexample :
    ucLastId.last_id = 3 ∧ (3 : Nat) ≠ 0 ∧
    withdraw stLastId "creator" [⟨.native "uluna", 5⟩] =
      (.ok [CosmosMsg.bankSend "creator" 5 "uluna"],
       { stLastId with user_config := none }) := by
  refine ⟨by decide, by decide, by decide⟩

/-- `checked_sub` underflows exactly when the subtrahend is larger. -/
theorem checkedSub_none {a b : Nat} (h : a < b) : checkedSub a b = none := by
  unfold checkedSub
  rw [if_neg (by omega)]

/-- `checked_sub` on an in-range pair returns the difference. -/
theorem checkedSub_some {a b : Nat} (h : b ≤ a) : checkedSub a b = some (a - b) := by
  unfold checkedSub
  rw [if_pos h]

/-- C5 (amended): on a successful withdrawal the `UserConfig` record is
deleted exactly when every entry of the reduced tip balance is zero,
regardless of `last_id` and the overrides; otherwise the record is saved
with only `tip_balance` replaced (`last_id`, `max_hops`, `max_spread`
unchanged). -/
theorem withdraw_delete_condition (st : Storage) (sender : String)
    (assets : List Asset) (uc : UserConfig) (tip' : List Asset)
    (msgs : List CosmosMsg)
    (huc : st.user_config.getD UserConfig.default = uc)
    (hloop : withdrawLoop st.config sender uc.tip_balance assets =
      .ok (tip', msgs)) :
    (tip'.all (fun a => a.amount = 0) = true →
      withdraw st sender assets = (.ok msgs, { st with user_config := none })) ∧
    (tip'.all (fun a => a.amount = 0) = false →
      withdraw st sender assets =
        (.ok msgs,
         { st with user_config := some { uc with tip_balance := tip' } })) := by
  constructor <;> intro hall <;> unfold withdraw <;> dsimp only <;>
    rw [huc, hloop] <;> simp [hall]

/-- Witness for C5's amended theorem: withdrawing the full 45000 `uluna`
tip of `stFix` zeroes the single balance entry and deletes the record. -/
theorem withdraw_delete_condition_witness :
    withdraw stFix "creator" [⟨.native "uluna", 45000⟩] =
      (.ok [CosmosMsg.bankSend "creator" 45000 "uluna"],
       { stFix with user_config := none }) :=
  (withdraw_delete_condition stFix "creator" [⟨.native "uluna", 45000⟩]
    ucFix [⟨.native "uluna", 0⟩] [CosmosMsg.bankSend "creator" 45000 "uluna"]
    (by decide) (by decide)).1 (by decide)

/-! ## C6: withdraw failure modes -/

/-- C6 counterexample: withdrawing an asset that is absent from the tip
balance but also not whitelisted fails with `NonWhitelistedTipAsset`, not
with `TipAssetNotDeposited` as the claim predicts — the whitelist check
runs first. -/
theorem withdraw_missing_asset_error_counterexample :
    ucFix.tip_balance.find? (fun b => b.info == AssetInfo.native "ugbp") = none ∧
    withdraw stFix "creator" [⟨.native "ugbp", 5⟩] =
      (.err (.nonWhitelistedTipAsset (.native "ugbp")), stFix) ∧
    ContractError.nonWhitelistedTipAsset (.native "ugbp") ≠
      ContractError.tipAssetNotDeposited (.native "ugbp") := by
  refine ⟨by decide, by decide, by decide⟩

/-- C6 (amended): for a single-asset withdrawal of a *whitelisted* fee
asset: a missing tip-balance entry fails with `TipAssetNotDeposited`, an
entry smaller than the requested amount fails with the checked-subtraction
underflow error carrying the available and requested amounts, and a
sufficient entry succeeds, emitting a bank transfer back to the caller for
a native asset and no message for a cw20 asset. -/
theorem withdraw_single_asset_spec (st : Storage) (sender : String) (a : Asset)
    (uc : UserConfig) (huc : st.user_config.getD UserConfig.default = uc)
    (hw : st.config.is_whitelisted_fee_asset a.info = true) :
    (uc.tip_balance.find? (fun b => b.info == a.info) = none →
      withdraw st sender [a] = (.err (.tipAssetNotDeposited a.info), st)) ∧
    (∀ b, uc.tip_balance.find? (fun b => b.info == a.info) = some b →
      b.amount < a.amount →
      withdraw st sender [a] = (.err (.overflowSub b.amount a.amount), st)) ∧
    (∀ b, uc.tip_balance.find? (fun b => b.info == a.info) = some b →
      a.amount ≤ b.amount →
      ∃ st', withdraw st sender [a] =
        (.ok (match a.info with
              | .native denom => [CosmosMsg.bankSend sender a.amount denom]
              | .token _ => []), st')) := by
  refine ⟨?_, ?_, ?_⟩
  · intro hfind
    unfold withdraw withdrawLoop
    dsimp only
    rw [huc, if_neg (by simp [hw]), hfind]
  · intro b hfind hlt
    unfold withdraw withdrawLoop
    dsimp only
    rw [huc, if_neg (by simp [hw]), hfind]
    dsimp only
    rw [checkedSub_none hlt]
  · intro b hfind hle
    unfold withdraw withdrawLoop
    dsimp only
    rw [huc, if_neg (by simp [hw]), hfind]
    dsimp only
    rw [checkedSub_some hle]
    dsimp only
    simp only [withdrawLoop, List.append_nil]
    cases a with
    | mk info amount =>
      cases info <;> dsimp only <;> split <;> exact ⟨_, rfl⟩

/-- Witness for C6's amended theorem: withdrawing 50000 `uluna` against a
45000 balance fails with the underflow error reporting both amounts. -/
theorem withdraw_single_asset_spec_witness :
    withdraw stFix "creator" [⟨.native "uluna", 50000⟩] =
      (.err (.overflowSub 45000 50000), stFix) :=
  (withdraw_single_asset_spec stFix "creator" ⟨.native "uluna", 50000⟩
    ucFix (by decide) (by decide)).2.1 ⟨.native "uluna", 45000⟩
    (by decide) (by decide)

/-! ## Reduction lemmas for perform_dca_purchase -/

/-- Once the hop-shape validation (non-empty route, hop ceiling, middle-hop
whitelist) passes, `perform_dca_purchase` reduces to the fee validation,
tip redemption and order update. -/
theorem perform_after_validation (st : Storage) (now : Nat)
    (sender user : String) (id : Nat) (hops : List SwapOperation)
    (fee : List Asset) (uc : UserConfig)
    (huc : st.user_config.getD UserConfig.default = uc)
    (hne : hops.isEmpty = false)
    (hlen : ¬ hops.length > uc.max_hops.getD st.config.max_hops)
    (hmid : checkMiddleHops st.config hops.dropLast = none) :
    perform_dca_purchase st now sender user id hops fee =
      (match requestedFeeHops st.config fee with
       | .err e => (.err e, st)
       | .panic => (.panic, st)
       | .ok requested =>
         if requested > hops.length then
           (.err (.redeemTipTooLarge requested hops.length), st)
         else
           match redeemFees sender user uc.tip_balance fee with
           | .err e => (.err e, st)
           | .panic => (.panic, st)
           | .ok (tip', feeMsgs) =>
             match purchaseOrdersStep st.config.router_addr user
                 (uc.max_spread.getD st.config.max_spread) now hops id
                 st.user_dca with
             | .err e => (.err e, st)
             | .panic => (.panic, st)
             | .ok (orders', orderMsgs) =>
               (.ok (feeMsgs ++ orderMsgs),
                { st with
                    user_dca := some orders'
                    user_config := some { uc with tip_balance := tip' } })) := by
  unfold perform_dca_purchase
  dsimp only
  rw [huc, hne, if_neg (by simp), if_neg hlen, hmid]

/-- Under passing route and fee validation, a purchase attempt before
`wrapAdd64 last_purchase interval` fails with `PurchaseTooEarly` and leaves
the storage untouched. -/
theorem perform_too_early (st : Storage) (now : Nat) (sender user : String)
    (id : Nat) (hops : List SwapOperation) (fee : List Asset)
    (uc : UserConfig) (r : Nat) (tip' : List Asset) (feeMsgs : List CosmosMsg)
    (orders : List DcaInfo) (idx : Nat) (order : DcaInfo)
    (huc : st.user_config.getD UserConfig.default = uc)
    (hne : hops.isEmpty = false)
    (hlen : ¬ hops.length > uc.max_hops.getD st.config.max_hops)
    (hmid : checkMiddleHops st.config hops.dropLast = none)
    (hfee : requestedFeeHops st.config fee = .ok r)
    (hcap : ¬ r > hops.length)
    (hredeem : redeemFees sender user uc.tip_balance fee = .ok (tip', feeMsgs))
    (horders : st.user_dca = some orders)
    (hfind : findOrder orders id = some (idx, order))
    (htime : now < wrapAdd64 order.last_purchase order.interval) :
    perform_dca_purchase st now sender user id hops fee =
      (.err .purchaseTooEarly, st) := by
  rw [perform_after_validation st now sender user id hops fee uc huc hne hlen hmid,
    hfee]
  dsimp only
  rw [if_neg hcap, hredeem]
  dsimp only
  unfold purchaseOrdersStep
  rw [horders]
  dsimp only
  rw [hfind]
  dsimp only
  rw [if_pos htime]

/-- Under passing route and fee validation, a purchase on a user with no
order of the requested id fails with `NonexistentDca`, storage untouched. -/
theorem perform_nonexistent (st : Storage) (now : Nat) (sender user : String)
    (id : Nat) (hops : List SwapOperation) (fee : List Asset)
    (uc : UserConfig) (r : Nat) (tip' : List Asset) (feeMsgs : List CosmosMsg)
    (orders : List DcaInfo)
    (huc : st.user_config.getD UserConfig.default = uc)
    (hne : hops.isEmpty = false)
    (hlen : ¬ hops.length > uc.max_hops.getD st.config.max_hops)
    (hmid : checkMiddleHops st.config hops.dropLast = none)
    (hfee : requestedFeeHops st.config fee = .ok r)
    (hcap : ¬ r > hops.length)
    (hredeem : redeemFees sender user uc.tip_balance fee = .ok (tip', feeMsgs))
    (horders : st.user_dca = some orders)
    (hfind : findOrder orders id = none) :
    perform_dca_purchase st now sender user id hops fee =
      (.err .nonexistentDca, st) := by
  rw [perform_after_validation st now sender user id hops fee uc huc hne hlen hmid,
    hfee]
  dsimp only
  rw [if_neg hcap, hredeem]
  dsimp only
  unfold purchaseOrdersStep
  rw [horders]
  dsimp only
  rw [hfind]

/-- Full characterisation of a successful purchase: the keeper payments are
followed by the optional cw20 pull to the router and the router swap; the
order's amount is reduced by `dca_amount`, its `last_purchase` is stamped
with `now`, the order is erased when the remainder is zero, and the reduced
tip balance is saved. -/
theorem perform_ok_shape (st : Storage) (now : Nat) (sender user : String)
    (id : Nat) (hops : List SwapOperation) (fee : List Asset)
    (uc : UserConfig) (r : Nat) (tip' : List Asset) (feeMsgs : List CosmosMsg)
    (orders : List DcaInfo) (idx : Nat) (order : DcaInfo)
    (lastHop : SwapOperation) (newAmt : Nat)
    (huc : st.user_config.getD UserConfig.default = uc)
    (hne : hops.isEmpty = false)
    (hlen : ¬ hops.length > uc.max_hops.getD st.config.max_hops)
    (hmid : checkMiddleHops st.config hops.dropLast = none)
    (hfee : requestedFeeHops st.config fee = .ok r)
    (hcap : ¬ r > hops.length)
    (hredeem : redeemFees sender user uc.tip_balance fee = .ok (tip', feeMsgs))
    (horders : st.user_dca = some orders)
    (hfind : findOrder orders id = some (idx, order))
    (htime : ¬ now < wrapAdd64 order.last_purchase order.interval)
    (hlast : hops.getLast? = some lastHop)
    (htarget : lastHop.get_target_asset_info = order.target_asset)
    (hsub : checkedSub order.initial_asset.amount order.dca_amount = some newAmt) :
    perform_dca_purchase st now sender user id hops fee =
      (.ok (feeMsgs ++
        ((match order.initial_asset.info with
          | .token ca =>
            [CosmosMsg.cw20TransferFrom ca user st.config.router_addr order.dca_amount]
          | .native _ => ([] : List CosmosMsg)) ++
         [CosmosMsg.routerSwap st.config.router_addr
            (match order.initial_asset.info with
             | .native denom => [(order.dca_amount, denom)]
             | .token _ => [])
            hops user (uc.max_spread.getD st.config.max_spread)])),
       { st with
          user_dca := some (if newAmt = 0 then
              ((orders.set idx
                { order with
                  initial_asset := { order.initial_asset with amount := newAmt }
                  last_purchase := now }).eraseIdx idx)
            else orders.set idx
              { order with
                initial_asset := { order.initial_asset with amount := newAmt }
                last_purchase := now })
          user_config := some { uc with tip_balance := tip' } }) := by
  rw [perform_after_validation st now sender user id hops fee uc huc hne hlen hmid,
    hfee]
  dsimp only
  rw [if_neg hcap, hredeem]
  dsimp only
  unfold purchaseOrdersStep
  rw [horders]
  dsimp only
  rw [hfind]
  dsimp only
  rw [if_neg htime, hlast]
  dsimp only
  rw [if_neg (not_not_intro htarget), hsub]

/-! ## C1: interval monotonicity -/

/-- C1 counterexample: an order with `last_purchase = 5` and `interval =
2^64 - 5` makes the unchecked timing addition wrap to 0, so a purchase at
block time 3 — although `3 < last_purchase + interval` — does *not* fail
with `PurchaseTooEarly` but succeeds. -/
def orderWrapC1 : DcaInfo :=
  { id := 1, initial_asset := ⟨.native "uluna", 300⟩
    target_asset := .native "ukrw", interval := U64_MOD - 5, last_purchase := 5
    dca_amount := 100 }

/-- Storage holding `orderWrapC1`. -/
def stWrapC1 : Storage := ⟨cfgFix, none, some [orderWrapC1]⟩

/-- C1 counterexample: with an interval that overflows the `u64` timing
addition, a purchase strictly before `last_purchase + interval` succeeds
instead of failing with `PurchaseTooEarly`. -/
theorem purchase_too_early_counterexample :
    3 < orderWrapC1.last_purchase + orderWrapC1.interval ∧
    perform_dca_purchase stWrapC1 3 "bot" "user" 1 hopsDirect [] =
      (.ok [CosmosMsg.routerSwap "router" [(100, "uluna")] hopsDirect "user" 5],
       { stWrapC1 with
          user_dca := some [{ orderWrapC1 with
            initial_asset := ⟨.native "uluna", 200⟩, last_purchase := 3 }]
          user_config := some UserConfig.default }) := by
  refine ⟨by decide, by decide⟩

/-- C1 (amended): for a stored order with interval `I` and last purchase
`T` such that `T + I` does not overflow `u64`, and assuming all other
preconditions of `perform_dca_purchase` hold, a purchase attempt at block
time `now < T + I` fails with `PurchaseTooEarly` (with no storage write),
and at `now ≥ T + I` it succeeds and stamps the order's `last_purchase`
with `now` (the order being erased when its balance is exhausted). -/
theorem purchase_interval_monotonic (st : Storage) (now : Nat)
    (sender user : String) (id : Nat) (hops : List SwapOperation)
    (fee : List Asset) (uc : UserConfig) (r : Nat) (tip' : List Asset)
    (feeMsgs : List CosmosMsg) (orders : List DcaInfo) (idx : Nat)
    (order : DcaInfo) (lastHop : SwapOperation)
    (huc : st.user_config.getD UserConfig.default = uc)
    (hne : hops.isEmpty = false)
    (hlen : ¬ hops.length > uc.max_hops.getD st.config.max_hops)
    (hmid : checkMiddleHops st.config hops.dropLast = none)
    (hfee : requestedFeeHops st.config fee = .ok r)
    (hcap : ¬ r > hops.length)
    (hredeem : redeemFees sender user uc.tip_balance fee = .ok (tip', feeMsgs))
    (horders : st.user_dca = some orders)
    (hfind : findOrder orders id = some (idx, order))
    (hnowrap : order.last_purchase + order.interval < U64_MOD)
    (hlast : hops.getLast? = some lastHop)
    (htarget : lastHop.get_target_asset_info = order.target_asset)
    (hbal : order.dca_amount ≤ order.initial_asset.amount) :
    (now < order.last_purchase + order.interval →
      perform_dca_purchase st now sender user id hops fee =
        (.err .purchaseTooEarly, st)) ∧
    (order.last_purchase + order.interval ≤ now →
      perform_dca_purchase st now sender user id hops fee =
        (.ok (feeMsgs ++
          ((match order.initial_asset.info with
            | .token ca =>
              [CosmosMsg.cw20TransferFrom ca user st.config.router_addr order.dca_amount]
            | .native _ => ([] : List CosmosMsg)) ++
           [CosmosMsg.routerSwap st.config.router_addr
              (match order.initial_asset.info with
               | .native denom => [(order.dca_amount, denom)]
               | .token _ => [])
              hops user (uc.max_spread.getD st.config.max_spread)])),
         { st with
            user_dca := some
              (if order.initial_asset.amount - order.dca_amount = 0 then
                ((orders.set idx
                  { order with
                    initial_asset := { order.initial_asset with
                      amount := order.initial_asset.amount - order.dca_amount }
                    last_purchase := now }).eraseIdx idx)
              else orders.set idx
                { order with
                  initial_asset := { order.initial_asset with
                    amount := order.initial_asset.amount - order.dca_amount }
                  last_purchase := now })
            user_config := some { uc with tip_balance := tip' } })) := by
  have hw : wrapAdd64 order.last_purchase order.interval =
      order.last_purchase + order.interval := Nat.mod_eq_of_lt hnowrap
  constructor
  · intro hlt
    exact perform_too_early st now sender user id hops fee uc r tip' feeMsgs
      orders idx order huc hne hlen hmid hfee hcap hredeem horders hfind
      (by rw [hw]; exact hlt)
  · intro hge
    exact perform_ok_shape st now sender user id hops fee uc r tip' feeMsgs
      orders idx order lastHop (order.initial_asset.amount - order.dca_amount)
      huc hne hlen hmid hfee hcap hredeem horders hfind
      (by rw [hw]; omega) hlast htarget (checkedSub_some hbal)

/-- Witness for C1's amended theorem on the `stFix` fixture: at time 499
(before `0 + 500`) the purchase fails with `PurchaseTooEarly`; at time 500
it succeeds and sets `last_purchase := 500`. -/
theorem purchase_interval_monotonic_witness :
    (499 < orderFix.last_purchase + orderFix.interval →
      perform_dca_purchase stFix 499 "bot" "creator" 1 hopsFix
          [⟨.native "uluna", 30000⟩] =
        (.err .purchaseTooEarly, stFix)) ∧
    (orderFix.last_purchase + orderFix.interval ≤ 500 →
      perform_dca_purchase stFix 500 "bot" "creator" 1 hopsFix
          [⟨.native "uluna", 30000⟩] =
        (.ok ([CosmosMsg.bankSend "bot" 30000 "uluna"] ++
          (([] : List CosmosMsg) ++
           [CosmosMsg.routerSwap "router" [(10000, "uluna")] hopsFix "creator" 5])),
         { stFix with
            user_dca := some
              (if (100000 : Nat) - 10000 = 0 then
                (([orderFix].set 0
                  { orderFix with
                    initial_asset := ⟨.native "uluna", 100000 - 10000⟩
                    last_purchase := 500 }).eraseIdx 0)
              else [orderFix].set 0
                { orderFix with
                  initial_asset := ⟨.native "uluna", 100000 - 10000⟩
                  last_purchase := 500 })
            user_config := some { ucFix with tip_balance := [⟨.native "uluna", 15000⟩] } })) := by
  constructor
  · intro h
    exact (purchase_interval_monotonic stFix 499 "bot" "creator" 1 hopsFix
      [⟨.native "uluna", 30000⟩] ucFix 2 [⟨.native "uluna", 15000⟩]
      [CosmosMsg.bankSend "bot" 30000 "uluna"] [orderFix] 0 orderFix
      (.astroSwap (.native "ujpy") (.native "ukrw")) (by decide) (by decide)
      (by decide) (by decide) (by decide) (by decide) (by decide) (by decide)
      (by decide) (by decide) (by decide) (by decide) (by decide)).1 h
  · intro h
    exact (purchase_interval_monotonic stFix 500 "bot" "creator" 1 hopsFix
      [⟨.native "uluna", 30000⟩] ucFix 2 [⟨.native "uluna", 15000⟩]
      [CosmosMsg.bankSend "bot" 30000 "uluna"] [orderFix] 0 orderFix
      (.astroSwap (.native "ujpy") (.native "ukrw")) (by decide) (by decide)
      (by decide) (by decide) (by decide) (by decide) (by decide) (by decide)
      (by decide) (by decide) (by decide) (by decide) (by decide)).2 h

/-! ## C9: exhaustion removal -/

/-- `findOrder` returns an order with the requested id, stored at the
returned index. -/
theorem findOrder_spec : ∀ (l : List DcaInfo) (id i : Nat) (o : DcaInfo),
    findOrder l id = some (i, o) → o.id = id ∧ l.get? i = some o := by
  intro l
  induction l with
  | nil => intro id i o h; simp [findOrder] at h
  | cons a rest ih =>
    intro id i o h
    unfold findOrder at h
    by_cases ha : a.id = id
    · rw [if_pos ha] at h
      simp only [Option.some.injEq, Prod.mk.injEq] at h
      obtain ⟨hi, ho⟩ := h
      subst hi
      subst ho
      exact ⟨ha, rfl⟩
    · rw [if_neg ha] at h
      cases hf : findOrder rest id with
      | none => rw [hf] at h; simp at h
      | some p =>
        rw [hf] at h
        simp only [Option.map_some', Option.some.injEq, Prod.mk.injEq] at h
        obtain ⟨hi, ho⟩ := h
        obtain ⟨hid, hget⟩ := ih id p.1 p.2 (by rw [hf])
        subst ho
        rw [← hi]
        exact ⟨hid, hget⟩

/-- If no order in the list has the requested id, `findOrder` misses. -/
theorem findOrder_none_of_forall : ∀ (l : List DcaInfo) (id : Nat),
    (∀ o ∈ l, o.id ≠ id) → findOrder l id = none := by
  intro l
  induction l with
  | nil => intro id _; rfl
  | cons a rest ih =>
    intro id hall
    unfold findOrder
    rw [if_neg (hall a (List.mem_cons_self a rest)),
      ih id (fun o ho => hall o (List.mem_cons_of_mem a ho))]
    rfl

/-- Setting an index and then erasing it is the same as erasing it. -/
theorem eraseIdx_set {α : Type} : ∀ (l : List α) (i : Nat) (x : α),
    (l.set i x).eraseIdx i = l.eraseIdx i := by
  intro l
  induction l with
  | nil => intro i x; rfl
  | cons a rest ih =>
    intro i x
    cases i with
    | zero => rfl
    | succ j => simp only [List.set_cons_succ, List.eraseIdx_cons_succ, ih]

/-- Replacing an existing index keeps the new element in the list. -/
theorem mem_set_self {α : Type} : ∀ (l : List α) (i : Nat) (x : α),
    i < l.length → x ∈ l.set i x := by
  intro l
  induction l with
  | nil => intro i x h; simp at h
  | cons a rest ih =>
    intro i x h
    cases i with
    | zero => exact List.mem_cons_self x rest
    | succ j =>
      exact List.mem_cons_of_mem a (ih j x (by simpa using Nat.lt_of_succ_lt_succ h))

/-- With pairwise-distinct ids, erasing the index found by `findOrder`
removes the only order with that id. -/
theorem findOrder_eraseIdx : ∀ (l : List DcaInfo) (id i : Nat) (o : DcaInfo),
    l.Pairwise (fun a b => a.id ≠ b.id) → findOrder l id = some (i, o) →
    findOrder (l.eraseIdx i) id = none := by
  intro l
  induction l with
  | nil => intro id i o _ h; simp [findOrder] at h
  | cons a rest ih =>
    intro id i o hp h
    rw [List.pairwise_cons] at hp
    obtain ⟨ha_rest, hp_rest⟩ := hp
    unfold findOrder at h
    by_cases ha : a.id = id
    · rw [if_pos ha] at h
      simp only [Option.some.injEq, Prod.mk.injEq] at h
      obtain ⟨hi, _⟩ := h
      subst hi
      exact findOrder_none_of_forall rest id
        (fun o' ho' hid => ha_rest o' ho' (ha.trans hid.symm))
    · rw [if_neg ha] at h
      cases hf : findOrder rest id with
      | none => rw [hf] at h; simp at h
      | some p =>
        rw [hf] at h
        simp only [Option.map_some', Option.some.injEq, Prod.mk.injEq] at h
        obtain ⟨hi, _⟩ := h
        rw [← hi]
        show findOrder (a :: rest.eraseIdx p.1) id = none
        unfold findOrder
        rw [if_neg ha, ih id p.1 p.2 hp_rest (by rw [hf])]
        rfl

/-- C9: under passing validation and timing (with pairwise-distinct stored
order ids), a purchase that reduces the order's balance to exactly zero
removes the order from the set, after which any purchase naming the same
id — whenever it again reaches the order lookup — fails with
`NonexistentDca`; a purchase leaving a nonzero remainder keeps an order
with that id in the set. -/
theorem purchase_exhaustion_removal (st : Storage) (now : Nat)
    (sender user : String) (id : Nat) (hops : List SwapOperation)
    (fee : List Asset) (uc : UserConfig) (r : Nat) (tip' : List Asset)
    (feeMsgs : List CosmosMsg) (orders : List DcaInfo) (idx : Nat)
    (order : DcaInfo) (lastHop : SwapOperation)
    (huc : st.user_config.getD UserConfig.default = uc)
    (hne : hops.isEmpty = false)
    (hlen : ¬ hops.length > uc.max_hops.getD st.config.max_hops)
    (hmid : checkMiddleHops st.config hops.dropLast = none)
    (hfee : requestedFeeHops st.config fee = .ok r)
    (hcap : ¬ r > hops.length)
    (hredeem : redeemFees sender user uc.tip_balance fee = .ok (tip', feeMsgs))
    (horders : st.user_dca = some orders)
    (hfind : findOrder orders id = some (idx, order))
    (htime : ¬ now < wrapAdd64 order.last_purchase order.interval)
    (hlast : hops.getLast? = some lastHop)
    (htarget : lastHop.get_target_asset_info = order.target_asset)
    (hpair : orders.Pairwise (fun a b => a.id ≠ b.id)) :
    (order.dca_amount = order.initial_asset.amount →
      ∃ msgs,
        perform_dca_purchase st now sender user id hops fee =
          (.ok msgs,
           { st with
              user_dca := some (orders.eraseIdx idx)
              user_config := some { uc with tip_balance := tip' } }) ∧
        findOrder (orders.eraseIdx idx) id = none ∧
        (∀ (now2 : Nat) (sender2 : String) (hops2 : List SwapOperation)
            (fee2 : List Asset) (r2 : Nat) (tip2 : List Asset)
            (fm2 : List CosmosMsg),
          hops2.isEmpty = false →
          ¬ hops2.length > uc.max_hops.getD st.config.max_hops →
          checkMiddleHops st.config hops2.dropLast = none →
          requestedFeeHops st.config fee2 = .ok r2 →
          ¬ r2 > hops2.length →
          redeemFees sender2 user tip' fee2 = .ok (tip2, fm2) →
          perform_dca_purchase
              { st with
                 user_dca := some (orders.eraseIdx idx)
                 user_config := some { uc with tip_balance := tip' } }
              now2 sender2 user id hops2 fee2 =
            (.err .nonexistentDca,
             { st with
                user_dca := some (orders.eraseIdx idx)
                user_config := some { uc with tip_balance := tip' } }))) ∧
    (order.dca_amount < order.initial_asset.amount →
      ∃ msgs orders',
        perform_dca_purchase st now sender user id hops fee =
          (.ok msgs,
           { st with
              user_dca := some orders'
              user_config := some { uc with tip_balance := tip' } }) ∧
        ∃ o' ∈ orders', o'.id = id) := by
  have hnone := findOrder_eraseIdx orders id idx order hpair hfind
  constructor
  · intro hexh
    have hsub : checkedSub order.initial_asset.amount order.dca_amount = some 0 := by
      rw [checkedSub_some (by omega)]
      congr 1
      omega
    have hshape := perform_ok_shape st now sender user id hops fee uc r tip'
      feeMsgs orders idx order lastHop 0 huc hne hlen hmid hfee hcap hredeem
      horders hfind htime hlast htarget hsub
    rw [if_pos rfl, eraseIdx_set] at hshape
    refine ⟨_, hshape, hnone, ?_⟩
    intro now2 sender2 hops2 fee2 r2 tip2 fm2 h1 h2 h3 h4 h5 h6
    exact perform_nonexistent _ now2 sender2 user id hops2 fee2
      { uc with tip_balance := tip' } r2 tip2 fm2 (orders.eraseIdx idx)
      rfl h1 h2 h3 h4 h5 h6 rfl hnone
  · intro hlt
    have hsub := checkedSub_some (le_of_lt hlt)
    have hshape := perform_ok_shape st now sender user id hops fee uc r tip'
      feeMsgs orders idx order lastHop
      (order.initial_asset.amount - order.dca_amount) huc hne hlen hmid hfee
      hcap hredeem horders hfind htime hlast htarget hsub
    rw [if_neg (by omega)] at hshape
    refine ⟨_, _, hshape, ?_⟩
    obtain ⟨hid, hget⟩ := findOrder_spec orders id idx order hfind
    have hlen' : idx < orders.length := (List.get?_eq_some.mp hget).1
    exact ⟨_, mem_set_self orders idx _ hlen', hid⟩

/-- An order whose whole remaining balance equals `dca_amount`, so one
purchase exhausts it. -/
def orderExh : DcaInfo :=
  { id := 1, initial_asset := ⟨.native "uluna", 10000⟩
    target_asset := .native "ukrw", interval := 500, last_purchase := 0
    dca_amount := 10000 }

/-- Storage holding only `orderExh`. -/
def stExh : Storage := ⟨cfgFix, some ucFix, some [orderExh]⟩

/-- The storage after the exhausting purchase: empty order list, reduced
tip balance. -/
def stExhAfter : Storage :=
  { config := cfgFix
    user_config := some { ucFix with tip_balance := [⟨.native "uluna", 15000⟩] }
    user_dca := some ([] : List DcaInfo) }

/-- Witness for C9: after the exhausting purchase on `stExh`, a second
purchase naming id 1 (passing all route/fee validation) fails with
`NonexistentDca`. -/
theorem purchase_exhaustion_removal_witness :
    perform_dca_purchase stExhAfter 2000 "bot2" "creator" 1 hopsFix [] =
      (.err .nonexistentDca, stExhAfter) := by
  obtain ⟨msgs, hok, hnone, hsecond⟩ :=
    (purchase_exhaustion_removal stExh 1000 "bot" "creator" 1 hopsFix
      [⟨.native "uluna", 30000⟩] ucFix 2 [⟨.native "uluna", 15000⟩]
      [CosmosMsg.bankSend "bot" 30000 "uluna"] [orderExh] 0 orderExh
      (.astroSwap (.native "ujpy") (.native "ukrw")) (by decide) (by decide)
      (by decide) (by decide) (by decide) (by decide) (by decide) (by decide)
      (by decide) (by decide) (by decide) (by decide) (by decide)).1 (by decide)
  exact hsecond 2000 "bot2" hopsFix [] 0 [⟨.native "uluna", 15000⟩] []
    (by decide) (by decide) (by decide) (by decide) (by decide) (by decide)

/-! ## C10: the first hop's offer asset is never inspected -/

/-- Replace the operation list carried by a router-swap message; all other
messages are unchanged. -/
def substOps (ops : List SwapOperation) : CosmosMsg → CosmosMsg
  | .routerSwap r f _ t ms => .routerSwap r f ops t ms
  | m => m

/-- The native-denomination whitelist scan of the middle-hop check equals
list membership of the corresponding native asset identity. -/
theorem any_native_eq_contains (l : List AssetInfo) (d : String) :
    (l.any fun t =>
      match t with
      | AssetInfo.native denom => d == denom
      | AssetInfo.token _ => false) = l.contains (AssetInfo.native d) := by
  induction l with
  | nil => rfl
  | cons a rest ih =>
    rw [List.any_cons, List.contains_cons, ih]
    congr 1
    cases a with
    | native denom =>
      show (d == denom) = (AssetInfo.native d == AssetInfo.native denom)
      by_cases hd : d = denom
      · subst hd; simp
      · rw [beq_eq_false_iff_ne.mpr hd, beq_eq_false_iff_ne.mpr (by simp [hd])]
    | token addr =>
      show false = (AssetInfo.native d == AssetInfo.token addr)
      rw [beq_eq_false_iff_ne.mpr (by simp)]

/-- The middle-hop check depends only on a hop's output asset identity. -/
theorem hopOutputCheck_ask (cfg : Config) (s : SwapOperation) :
    hopOutputCheck cfg s =
      (if cfg.whitelisted_tokens.contains s.get_target_asset_info then none
       else some s.get_target_asset_info.toStr) := by
  cases s with
  | nativeSwap offer ask =>
    unfold hopOutputCheck SwapOperation.get_target_asset_info
    dsimp only
    rw [any_native_eq_contains]
    rfl
  | astroSwap offer ask => rfl

/-- The keeper-payment messages contain no router-swap message, so
`substOps` leaves them unchanged. -/
theorem redeemFees_map_substOps (ops : List SwapOperation) (s u : String) :
    ∀ (fee : List Asset) (tip tip' : List Asset) (msgs : List CosmosMsg),
      redeemFees s u tip fee = .ok (tip', msgs) →
      msgs.map (substOps ops) = msgs := by
  intro fee
  induction fee with
  | nil =>
    intro tip tip' msgs h
    unfold redeemFees at h
    simp only [CResult.ok.injEq, Prod.mk.injEq] at h
    rw [← h.2]
    rfl
  | cons fa rest ih =>
    intro tip tip' msgs h
    unfold redeemFees at h
    cases hfind : tip.find? (fun b => b.info == fa.info) with
    | none => rw [hfind] at h; cases h
    | some b =>
      rw [hfind] at h
      dsimp only at h
      cases hsub : checkedSub b.amount fa.amount with
      | none => rw [hsub] at h; cases h
      | some nb =>
        rw [hsub] at h
        dsimp only at h
        cases hr : redeemFees s u (updateTip tip fa.info nb) rest with
        | err e => rw [hr] at h; cases h
        | panic => rw [hr] at h; cases h
        | ok p =>
          obtain ⟨tipF, ms⟩ := p
          rw [hr] at h
          dsimp only at h
          simp only [CResult.ok.injEq, Prod.mk.injEq] at h
          rw [← h.2, List.map_cons, ih (updateTip tip fa.info nb) tipF ms hr]
          cases fa.info <;> rfl

/-- The order-update step never reads a hop's offer asset: replacing the
first hop's offer (keeping its output) only substitutes the hop list
embedded in the emitted router message. -/
theorem purchaseOrdersStep_first_offer (router userAddr : String)
    (ms now : Nat) (a b : SwapOperation) (rest : List SwapOperation)
    (id : Nat) (od : Option (List DcaInfo))
    (hask : a.get_target_asset_info = b.get_target_asset_info) :
    purchaseOrdersStep router userAddr ms now (b :: rest) id od =
      (match purchaseOrdersStep router userAddr ms now (a :: rest) id od with
       | .ok (orders', msgs) => .ok (orders', msgs.map (substOps (b :: rest)))
       | .err e => .err e
       | .panic => .panic) := by
  unfold purchaseOrdersStep
  cases od with
  | none => rfl
  | some orders =>
    dsimp only
    cases hf : findOrder orders id with
    | none => rfl
    | some p =>
      obtain ⟨idx, order⟩ := p
      dsimp only
      by_cases ht : now < wrapAdd64 order.last_purchase order.interval
      · rw [if_pos ht, if_pos ht]
      · rw [if_neg ht, if_neg ht]
        cases rest with
        | nil =>
          dsimp only [List.getLast?_singleton]
          rw [hask]
          by_cases htar : b.get_target_asset_info ≠ order.target_asset
          · rw [if_pos htar, if_pos htar]
          · rw [if_neg htar, if_neg htar]
            cases hs : checkedSub order.initial_asset.amount order.dca_amount with
            | none => rfl
            | some newAmt =>
              dsimp only
              cases order.initial_asset.info <;> rfl
        | cons r rs =>
          rw [List.getLast?_cons_cons, List.getLast?_cons_cons]
          cases hl : (r :: rs).getLast? with
          | none => rfl
          | some lastHop =>
            dsimp only
            by_cases htar : lastHop.get_target_asset_info ≠ order.target_asset
            · rw [if_pos htar, if_pos htar]
            · rw [if_neg htar, if_neg htar]
              cases hs : checkedSub order.initial_asset.amount order.dca_amount with
              | none => rfl
              | some newAmt =>
                dsimp only
                cases order.initial_asset.info <;> rfl

/-- C10: `perform_dca_purchase` never compares the first hop's offer asset
to the order's `initial_asset` (or to anything): replacing the first hop's
offer asset while keeping its output yields the very same outcome — same
error, same storage, same messages — except that the hop list forwarded
inside the router-swap message is the new one; in particular whenever the
original route passes validation and succeeds, so does the altered one,
still deducting and forwarding `dca_amount` of the order's
`initial_asset`. -/
theorem purchase_ignores_first_hop_offer (st : Storage) (now : Nat)
    (sender user : String) (id : Nat) (a b : SwapOperation)
    (rest : List SwapOperation) (fee : List Asset)
    (hask : a.get_target_asset_info = b.get_target_asset_info) :
    perform_dca_purchase st now sender user id (b :: rest) fee =
      ((match (perform_dca_purchase st now sender user id (a :: rest) fee).1 with
        | .ok msgs => .ok (msgs.map (substOps (b :: rest)))
        | .err e => .err e
        | .panic => .panic),
       (perform_dca_purchase st now sender user id (a :: rest) fee).2) := by
  unfold perform_dca_purchase
  dsimp only
  simp only [List.isEmpty_cons, Bool.false_eq_true, if_false, List.length_cons]
  by_cases hlen : rest.length + 1 >
      (st.user_config.getD UserConfig.default).max_hops.getD st.config.max_hops
  · rw [if_pos hlen, if_pos hlen]
  · rw [if_neg hlen, if_neg hlen]
    have hmid : checkMiddleHops st.config (b :: rest).dropLast =
        checkMiddleHops st.config (a :: rest).dropLast := by
      cases rest with
      | nil => rfl
      | cons r rs =>
        rw [List.dropLast_cons₂, List.dropLast_cons₂]
        unfold checkMiddleHops
        rw [hopOutputCheck_ask st.config a, hopOutputCheck_ask st.config b, hask]
    rw [hmid]
    cases hcm : checkMiddleHops st.config (a :: rest).dropLast with
    | some token => rfl
    | none =>
      dsimp only
      cases hrf : requestedFeeHops st.config fee with
      | err e => rfl
      | panic => rfl
      | ok r =>
        dsimp only
        by_cases hcap : r > rest.length + 1
        · rw [if_pos hcap, if_pos hcap]
        · rw [if_neg hcap, if_neg hcap]
          cases hrd : redeemFees sender user
              (st.user_config.getD UserConfig.default).tip_balance fee with
          | err e => rfl
          | panic => rfl
          | ok p =>
            obtain ⟨tip', feeMsgs⟩ := p
            dsimp only
            rw [purchaseOrdersStep_first_offer st.config.router_addr user
              ((st.user_config.getD UserConfig.default).max_spread.getD
                st.config.max_spread) now a b rest id st.user_dca hask]
            cases hpo : purchaseOrdersStep st.config.router_addr user
                ((st.user_config.getD UserConfig.default).max_spread.getD
                  st.config.max_spread) now (a :: rest) id st.user_dca with
            | err e => rfl
            | panic => rfl
            | ok q =>
              obtain ⟨orders', orderMsgs⟩ := q
              dsimp only
              rw [List.map_append,
                redeemFees_map_substOps (b :: rest) sender user fee
                  (st.user_config.getD UserConfig.default).tip_balance
                  tip' feeMsgs hrd]

/-- Witness for C10: on the `stFix` purchase, replacing the first hop's
offer asset `uluna` by the unrelated cw20 token `anytoken` (keeping the
`ujpy` output) leaves the outcome identical up to the forwarded hop
list. -/
theorem purchase_ignores_first_hop_offer_witness :
    perform_dca_purchase stFix 1000 "bot" "creator" 1
        (.astroSwap (.token "anytoken") (.native "ujpy") ::
          [.astroSwap (.native "ujpy") (.native "ukrw")]) [⟨.native "uluna", 30000⟩] =
      ((match (perform_dca_purchase stFix 1000 "bot" "creator" 1
          (.astroSwap (.native "uluna") (.native "ujpy") ::
            [.astroSwap (.native "ujpy") (.native "ukrw")])
          [⟨.native "uluna", 30000⟩]).1 with
        | .ok msgs => .ok (msgs.map (substOps
            (.astroSwap (.token "anytoken") (.native "ujpy") ::
              [.astroSwap (.native "ujpy") (.native "ukrw")])))
        | .err e => .err e
        | .panic => .panic),
       (perform_dca_purchase stFix 1000 "bot" "creator" 1
          (.astroSwap (.native "uluna") (.native "ujpy") ::
            [.astroSwap (.native "ujpy") (.native "ukrw")])
          [⟨.native "uluna", 30000⟩]).2) :=
  purchase_ignores_first_hop_offer stFix 1000 "bot" "creator" 1
    (.astroSwap (.native "uluna") (.native "ujpy"))
    (.astroSwap (.token "anytoken") (.native "ujpy"))
    [.astroSwap (.native "ujpy") (.native "ukrw")]
    [⟨.native "uluna", 30000⟩] (by decide)

/-! ## C7: fee-redeem validation -/

/-- A config whose fee-per-hop unit for `uluna` is 1. -/
def cfgUnit : Config :=
  { max_hops := 4
    max_spread := 5
    whitelisted_fee_assets := [⟨.native "uluna", 1⟩]
    whitelisted_tokens := [.native "ujpy"]
    factory_addr := "factory"
    router_addr := "router" }

/-- Storage with `cfgUnit` and no user data. -/
def stUnit : Storage := ⟨cfgUnit, none, none⟩

/-- C7 counterexample: two fee entries of `2^127` `uluna` at unit 1 give a
requested fee-hop total of `2^128`, which overflows the `Uint128` sum: the
call aborts with a panic instead of failing with `RedeemTipTooLarge`. -/
theorem fee_sum_overflow_counterexample :
    (2 ^ 127 / 1 + 2 ^ 127 / 1 > hopsDirect.length) ∧
    requestedFeeHops cfgUnit
        [⟨.native "uluna", 2 ^ 127⟩, ⟨.native "uluna", 2 ^ 127⟩] = .panic ∧
    perform_dca_purchase stUnit 0 "bot" "user" 1 hopsDirect
        [⟨.native "uluna", 2 ^ 127⟩, ⟨.native "uluna", 2 ^ 127⟩] =
      (.panic, stUnit) ∧
    (CResult.panic : CResult (List CosmosMsg)) ≠
      .err (.redeemTipTooLarge (2 ^ 127 / 1 + 2 ^ 127 / 1) hopsDirect.length) := by
  refine ⟨by decide, by decide, by decide, by decide⟩

/-- A successfully collected fee list has every entry matched against the
whitelist with a nonzero unit that divides its amount. -/
theorem feeTerms_ok_forall (cfg : Config) : ∀ (fee : List Asset) (ts : List Nat),
    feeTerms cfg fee = .ok ts →
    ∀ a ∈ fee, ∃ w, cfg.whitelisted_fee_assets.find? (fun w => w.info == a.info) =
      some w ∧ w.amount ≠ 0 ∧ a.amount % w.amount = 0 := by
  intro fee
  induction fee with
  | nil => intro ts _ a ha; cases ha
  | cons b rest ih =>
    intro ts h a ha
    unfold feeTerms feeTerm at h
    cases hfind : cfg.whitelisted_fee_assets.find? (fun w => w.info == b.info) with
    | none => rw [hfind] at h; cases h
    | some w =>
      rw [hfind] at h
      dsimp only at h
      by_cases hw0 : w.amount = 0
      · rw [if_pos hw0] at h; cases h
      · rw [if_neg hw0] at h
        by_cases hrem : b.amount % w.amount ≠ 0
        · rw [if_pos hrem] at h; cases h
        · rw [if_neg hrem] at h
          cases hrest : feeTerms cfg rest with
          | err e => rw [hrest] at h; cases h
          | panic => rw [hrest] at h; cases h
          | ok ts' =>
            cases List.mem_cons.mp ha with
            | inl hab =>
              subst hab
              exact ⟨w, hfind, hw0, by omega⟩
            | inr harest =>
              exact ih ts' hrest a harest

/-- A failing term at the head of the fee list fails the whole fee
computation with that error. -/
theorem requestedFeeHops_cons_err (cfg : Config) (a : Asset)
    (rest : List Asset) (e : ContractError) (hterm : feeTerm cfg a = .err e) :
    requestedFeeHops cfg (a :: rest) = .err e := by
  unfold requestedFeeHops feeTerms
  rw [hterm]

/-- C7 (amended): in `perform_dca_purchase`, once the route validation has
passed: (1) a successful fee computation forces every requested fee asset
to match a whitelisted entry with a nonzero fee-per-hop unit dividing its
amount; (2) any fee-computation error is returned unchanged with no
storage write; (3) for the first requested asset, a missing whitelist
entry yields `NonWhitelistedTipAsset`, a zero unit yields the
divide-by-zero error, and a non-multiple amount yields
`IndivisibleDeposit`; (4) a successfully computed fee-hop total exceeding
the hop count fails with `RedeemTipTooLarge` carrying exactly that total
and the hop count.  (A total of `2^128` or more instead aborts with an
overflow panic, see the counterexample.) -/
theorem fee_validation_spec (st : Storage) (now : Nat) (sender user : String)
    (id : Nat) (hops : List SwapOperation) (fee : List Asset)
    (uc : UserConfig)
    (huc : st.user_config.getD UserConfig.default = uc)
    (hne : hops.isEmpty = false)
    (hlen : ¬ hops.length > uc.max_hops.getD st.config.max_hops)
    (hmid : checkMiddleHops st.config hops.dropLast = none) :
    (∀ r, requestedFeeHops st.config fee = .ok r →
      ∀ a ∈ fee, ∃ w,
        st.config.whitelisted_fee_assets.find? (fun w => w.info == a.info) =
          some w ∧ w.amount ≠ 0 ∧ a.amount % w.amount = 0) ∧
    (∀ e, requestedFeeHops st.config fee = .err e →
      perform_dca_purchase st now sender user id hops fee = (.err e, st)) ∧
    (∀ a rest', fee = a :: rest' →
      (st.config.whitelisted_fee_assets.find? (fun w => w.info == a.info) = none →
        perform_dca_purchase st now sender user id hops fee =
          (.err (.nonWhitelistedTipAsset a.info), st)) ∧
      (∀ w, st.config.whitelisted_fee_assets.find? (fun w => w.info == a.info) =
          some w →
        (w.amount = 0 →
          perform_dca_purchase st now sender user id hops fee =
            (.err (.divideByZero a.amount), st)) ∧
        (w.amount ≠ 0 → a.amount % w.amount ≠ 0 →
          perform_dca_purchase st now sender user id hops fee =
            (.err .indivisibleDeposit, st)))) ∧
    (∀ r, requestedFeeHops st.config fee = .ok r → r > hops.length →
      perform_dca_purchase st now sender user id hops fee =
        (.err (.redeemTipTooLarge r hops.length), st)) := by
  have hval := perform_after_validation st now sender user id hops fee uc huc
    hne hlen hmid
  refine ⟨?_, ?_, ?_, ?_⟩
  · intro r hok a ha
    unfold requestedFeeHops at hok
    cases hts : feeTerms st.config fee with
    | err e => rw [hts] at hok; cases hok
    | panic => rw [hts] at hok; cases hok
    | ok ts => exact feeTerms_ok_forall st.config fee ts hts a ha
  · intro e herr
    rw [hval, herr]
  · intro a rest' hfee
    subst hfee
    constructor
    · intro hfind
      rw [hval, requestedFeeHops_cons_err st.config a rest'
        (.nonWhitelistedTipAsset a.info) (by unfold feeTerm; rw [hfind])]
    · intro w hfind
      constructor
      · intro hw0
        rw [hval, requestedFeeHops_cons_err st.config a rest'
          (.divideByZero a.amount)
          (by unfold feeTerm; rw [hfind]; dsimp only; rw [if_pos hw0])]
      · intro hw0 hrem
        rw [hval, requestedFeeHops_cons_err st.config a rest'
          .indivisibleDeposit
          (by unfold feeTerm; rw [hfind]; dsimp only; rw [if_neg hw0, if_pos hrem])]
  · intro r hok hcap
    rw [hval, hok]
    dsimp only
    rw [if_pos hcap]

/-- Witness for C7's amended theorem: 60000 `uluna` at unit 15000 requests
4 fee hops against a single-hop route and fails with
`RedeemTipTooLarge 4 1`. -/
theorem fee_validation_spec_witness :
    perform_dca_purchase stFix 1000 "bot" "creator" 1 hopsDirect
        [⟨.native "uluna", 60000⟩] =
      (.err (.redeemTipTooLarge 4 1), stFix) :=
  (fee_validation_spec stFix 1000 "bot" "creator" 1 hopsDirect
    [⟨.native "uluna", 60000⟩] ucFix (by decide) (by decide) (by decide)
    (by decide)).2.2.2 4 (by decide) (by decide)

/-! ## C4: modify with the same asset, increasing amount -/

/-- A stored cw20 order: 100 of token `tok`, spending 10 per purchase. -/
def orderTok : DcaInfo :=
  { id := 1, initial_asset := ⟨.token "tok", 100⟩
    target_asset := .native "uluna", interval := 10, last_purchase := 0
    dca_amount := 10 }

/-- A modification keeping the asset and raising the amount to 150. -/
def pInc : ModifyDcaOrderParameters :=
  { id := 1, new_initial_asset := ⟨.token "tok", 150⟩
    new_target_asset := .native "uluna", new_interval := 10
    new_dca_amount := 10, new_first_purchase := none }

/-- C4 counterexample: increasing a cw20 order from 100 to 150 with a
recorded allowance of exactly the delta (50) fails with
`InvalidTokenDeposit` — the code requires the allowance to cover the sum
of all stored same-token order amounts (here the old 100) plus the delta,
not the delta alone. -/
theorem modify_exact_delta_counterexample :
    (150 - 100 = 50) ∧
    modify_dca_order (some [orderTok]) "creator" [] (fun _ => 50) pInc =
      .err .invalidTokenDeposit := by
  refine ⟨by decide, by decide⟩

/-- C4 (amended): modifying an order while keeping the initial-asset
identity and not decreasing the amount succeeds exactly when the caller
covers the increase: for a native asset the attached funds must exactly
equal the delta (the funding-proof collaborator's exact-match check); for
a cw20 asset the live allowance must be at least the sum of all stored
same-token order amounts (the modified order still counted at its old
amount) plus the delta — otherwise the call fails with the
native-balance-mismatch error or `InvalidTokenDeposit`, and on success no
refund message is emitted. -/
theorem modify_same_asset_increase_spec (orders : List DcaInfo)
    (sender : String) (funds : List (String × Nat)) (allowance : String → Nat)
    (p : ModifyDcaOrderParameters) (idx : Nat) (order : DcaInfo)
    (hfind : findOrder orders p.id = some (idx, order))
    (hsame : order.initial_asset.info = p.new_initial_asset.info)
    (hinc : order.initial_asset.amount ≤ p.new_initial_asset.amount)
    (hne : p.new_initial_asset.info ≠ p.new_target_asset) :
    (∀ denom, order.initial_asset.info = .native denom →
      (assert_sent_native_token_balance
          (p.new_initial_asset.amount - order.initial_asset.amount) denom funds =
            .ok () →
        modify_dca_order (some orders) sender funds allowance p =
          .ok (orders.set idx
            { order with
              initial_asset := p.new_initial_asset
              target_asset := p.new_target_asset
              interval := p.new_interval
              dca_amount := p.new_dca_amount
              last_purchase :=
                match p.new_first_purchase with
                | some t => t
                | none => order.last_purchase }, [])) ∧
      (assert_sent_native_token_balance
          (p.new_initial_asset.amount - order.initial_asset.amount) denom funds =
            .err .nativeBalanceMismatch →
        modify_dca_order (some orders) sender funds allowance p =
          .err .nativeBalanceMismatch)) ∧
    (∀ ca, order.initial_asset.info = .token ca →
      ∀ total, totalTokenAllowance orders ca = some total →
      total + (p.new_initial_asset.amount - order.initial_asset.amount) < U128_MOD →
      ((total + (p.new_initial_asset.amount - order.initial_asset.amount) ≤
          allowance ca →
        modify_dca_order (some orders) sender funds allowance p =
          .ok (orders.set idx
            { order with
              initial_asset := p.new_initial_asset
              target_asset := p.new_target_asset
              interval := p.new_interval
              dca_amount := p.new_dca_amount
              last_purchase :=
                match p.new_first_purchase with
                | some t => t
                | none => order.last_purchase }, [])) ∧
       (allowance ca <
          total + (p.new_initial_asset.amount - order.initial_asset.amount) →
        modify_dca_order (some orders) sender funds allowance p =
          .err .invalidTokenDeposit))) := by
  constructor
  · intro denom hnative
    unfold modify_dca_order
    simp only [Option.getD_some]
    rw [hfind]
    dsimp only
    rw [if_neg hne, if_pos hsame, if_pos (by omega :
      ¬ order.initial_asset.amount > p.new_initial_asset.amount), hnative]
    dsimp only
    rw [if_neg (by omega : ¬ order.initial_asset.amount > p.new_initial_asset.amount)]
    constructor
    · intro hok
      rw [hok]
    · intro herr
      rw [herr]
  · intro ca htok total htotal hfit
    unfold modify_dca_order
    simp only [Option.getD_some]
    rw [hfind]
    dsimp only
    rw [if_neg hne, if_pos hsame, if_pos (by omega :
      ¬ order.initial_asset.amount > p.new_initial_asset.amount), htok]
    dsimp only
    rw [if_neg (by omega : ¬ order.initial_asset.amount > p.new_initial_asset.amount)]
    unfold checkTokenDeposit
    rw [htotal]
    dsimp only
    rw [if_pos hfit]
    constructor
    · intro hle
      rw [if_neg (by omega :
        ¬ total + (p.new_initial_asset.amount - order.initial_asset.amount) >
          allowance ca)]
    · intro hgt
      rw [if_pos (by omega :
        total + (p.new_initial_asset.amount - order.initial_asset.amount) >
          allowance ca)]

/-- Witness for C4's amended theorem: with an allowance of 150 covering the
stored 100 plus the delta 50, the same modification succeeds and emits no
refund message. -/
theorem modify_same_asset_increase_spec_witness :
    modify_dca_order (some [orderTok]) "creator" [] (fun _ => 150) pInc =
      .ok ([{ orderTok with initial_asset := ⟨.token "tok", 150⟩ }], []) :=
  ((modify_same_asset_increase_spec [orderTok] "creator" [] (fun _ => 150)
    pInc 0 orderTok (by decide) (by decide) (by decide) (by decide)).2
    "tok" (by decide) 100 (by decide) (by decide)).1 (by decide)

end AstroDca
